import Mathlib

/-!
Shallow embedding of the reference-counted ownership primitive exercised by
smartCeePP (src/smartptrs/smartptr.cpp). The repository's own code is the
set of demonstration routines (sharedPtrExample, cycleDemo, weakPtrExample,
advancedFeatures, Component, ResourceCache, moveSemanticsExample); the
counting semantics those routines exercise live in the C++ standard
library, which is not part of the repository, so the Control Block
semantics are modelled from the spec (sections 3 to 5) as an explicit heap
of control blocks, and the demonstration routines are embedded as traces
over that heap. Definitions come first, all theorems follow.
-/

namespace SmartPtr

/-- Modelled from the spec: a Control Block attached to one Value Slot.
`strong` and `weak` are the two counters, `alive` records whether the
Value Slot has been destroyed, `value` is the payload (a Widget id or a
Node value). `strongEdges` and `weakEdges` are the handles stored inside
the value itself (for example the `next` field of NodeShared or NodeWeak),
identified by the index of the control block they reference. -/
structure Block where
  strong : Nat
  weak : Nat
  alive : Bool
  value : Nat
  strongEdges : List Nat
  weakEdges : List Nat
deriving Repr, DecidableEq

/-- The heap: every control block allocated so far (a handle is the index
of its block) and the ordered log of destroy-actions that have fired. -/
structure Heap where
  blocks : List Block
  destroyed : List Nat
deriving Repr, DecidableEq

def emptyHeap : Heap := ⟨[], []⟩

def getB (h : Heap) (i : Nat) : Option Block := h.blocks.get? i

def setB (h : Heap) (i : Nat) (b : Block) : Heap :=
  { h with blocks := h.blocks.set i b }

def modifyB (h : Heap) (i : Nat) (f : Block → Block) : Heap :=
  match getB h i with
  | none => h
  | some b => setB h i (f b)

/-- Strong count of block `i`, 0 when the index is unallocated. -/
def strongOf (h : Heap) (i : Nat) : Nat :=
  match getB h i with
  | none => 0
  | some b => b.strong

/-- Weak count of block `i`, 0 when the index is unallocated. -/
def weakOf (h : Heap) (i : Nat) : Nat :=
  match getB h i with
  | none => 0
  | some b => b.weak

/-- Whether the Value Slot of block `i` is still constructed. -/
def aliveOf (h : Heap) (i : Nat) : Bool :=
  match getB h i with
  | none => false
  | some b => b.alive

/-- Modelled from the spec: `create_shared` (make_shared in the source)
allocates a fresh Value Slot with a new Control Block, strong count 1 and
weak count 0; returns the new heap and the new shared Strong Handle. -/
def allocShared (h : Heap) (v : Nat) : Heap × Nat :=
  ({ h with blocks := h.blocks ++ [⟨1, 0, true, v, [], []⟩] }, h.blocks.length)

/-- Modelled from the spec: `copy` on a shared Strong Handle increments
the strong count of its Control Block. -/
def incStrong (h : Heap) (i : Nat) : Heap :=
  modifyB h i fun b => { b with strong := b.strong + 1 }

/-- Modelled from the spec: `observe` (creating a weak handle) increments
the weak count. -/
def incWeak (h : Heap) (i : Nat) : Heap :=
  modifyB h i fun b => { b with weak := b.weak + 1 }

/-- Modelled from the spec: releasing a Weak Handle decrements the weak
count only; it never touches the strong count or the value. -/
def decWeak (h : Heap) (i : Nat) : Heap :=
  modifyB h i fun b => { b with weak := b.weak - 1 }

def decWeakList (h : Heap) (js : List Nat) : Heap := js.foldl decWeak h

/-- Modelled from the spec: `release` on shared Strong Handles, written as
a worklist loop so that the cascade of nested destructors is explicit.
Releasing handle `i`: with strong count above 1 the count is merely
decremented; when it is exactly 1 the count reaches 0, so the
destroy-action fires (appended to the log), the weak handles stored in
the value are released, and the strong handles stored in the value are
released in turn before the rest of the worklist (depth-first, matching
nested destructor calls). `fuel` bounds the loop. -/
def releaseLoop : Nat → Heap → List Nat → Heap
  | 0, h, _ => h
  | fuel + 1, h, work =>
    match work with
    | [] => h
    | i :: rest =>
      match getB h i with
      | none => releaseLoop fuel h rest
      | some b =>
        if b.strong = 0 then releaseLoop fuel h rest
        else if b.strong = 1 then
          let h1 := setB h i { b with strong := 0, alive := false,
                                      strongEdges := [], weakEdges := [] }
          let h2 := { h1 with destroyed := h1.destroyed ++ [i] }
          let h3 := decWeakList h2 b.weakEdges
          releaseLoop fuel h3 (b.strongEdges ++ rest)
        else releaseLoop fuel (setB h i { b with strong := b.strong - 1 }) rest

/-- Fuel sufficient for any cascade: one step per worklist item, and items
are only added when a block is destroyed, at most its stored edges. -/
def heapFuel (h : Heap) : Nat :=
  h.blocks.length + (h.blocks.map fun b => b.strongEdges.length).sum + 1

/-- Release one shared Strong Handle. -/
def release (h : Heap) (i : Nat) : Heap := releaseLoop (heapFuel h) h [i]

/-- Modelled from the spec: `dereference`; `none` on an unallocated or
already-destroyed slot (a precondition violation, not a value), otherwise
the payload. -/
def deref (h : Heap) (i : Nat) : Option Nat :=
  match getB h i with
  | none => none
  | some b => if b.alive then some b.value else none

/-- Modelled from the spec: `is_expired` (weak_ptr::expired in the
source): true exactly when the strong count is 0. -/
def expired (h : Heap) (i : Nat) : Bool :=
  match getB h i with
  | none => true
  | some b => decide (b.strong = 0)

/-- Modelled from the spec: `try_promote` (weak_ptr::lock in the source):
when the strong count is positive, increment it and hand back a new
shared Strong Handle to the same Control Block; otherwise `none`. -/
def tryPromote (h : Heap) (i : Nat) : Option (Heap × Nat) :=
  match getB h i with
  | none => none
  | some b => if 0 < b.strong then some (incStrong h i, i) else none

/-- Storing a shared Strong Handle to `j` inside the value of block `i`
(the assignment `a->next = b` of NodeShared): the target's strong count
goes up and the edge is recorded in the holder. -/
def setStrongEdge (h : Heap) (i j : Nat) : Heap :=
  modifyB (incStrong h j) i fun b => { b with strongEdges := b.strongEdges ++ [j] }

/-- Storing a Weak Handle to `j` inside the value of block `i` (the
assignment `a->next = b` of NodeWeak): the target's weak count goes up
and the edge is recorded in the holder. -/
def setWeakEdge (h : Heap) (i j : Nat) : Heap :=
  modifyB (incWeak h j) i fun b => { b with weakEdges := b.weakEdges ++ [j] }

/-! The first block of `cycleDemo` (src/smartptrs/smartptr.cpp lines
145-151): two NodeShared values, strong edges both ways, then the two
stack handles leave scope (`b` first, then `a`, the reverse of
declaration order). -/

def cdsA : Heap × Nat := allocShared emptyHeap 10

def cdsB : Heap × Nat := allocShared cdsA.1 20

def cdsLinked1 : Heap := setStrongEdge cdsB.1 cdsA.2 cdsB.2

def cdsLinked2 : Heap := setStrongEdge cdsLinked1 cdsB.2 cdsA.2

def cdsAfterBRelease : Heap := release cdsLinked2 cdsB.2

def cycleDemoShared : Heap := release cdsAfterBRelease cdsA.2

/-! The second block of `cycleDemo` (lines 156-162): the same linkage with
NodeWeak, whose `next` member is a Weak Handle. -/

def cdwA : Heap × Nat := allocShared emptyHeap 30

def cdwB : Heap × Nat := allocShared cdwA.1 40

def cdwLinked1 : Heap := setWeakEdge cdwB.1 cdwA.2 cdwB.2

def cdwLinked2 : Heap := setWeakEdge cdwLinked1 cdwB.2 cdwA.2

def cdwAfterBRelease : Heap := release cdwLinked2 cdwB.2

def cycleDemoWeak : Heap := release cdwAfterBRelease cdwA.2

/-- The Widget(50) heap of `weakPtrExample` (lines 165-184), right after
`make_shared`. -/
def wpeHeap : Heap := (allocShared emptyHeap 50).1

/-- `weakPtrExample` after `weak_ptr<Widget> wp = sp` (line 169): the weak
observer raises the weak count, leaving the strong count untouched. -/
def wpeObserved : Heap := incWeak wpeHeap 0

/-- `weakPtrExample` after `sp.reset()` (line 178): the last strong handle
released, Widget(50) destroyed, the weak observer outliving the value -
the expired slot the tail of the example queries. -/
def wpeReset : Heap := release wpeObserved 0

/-- The aliasing constructor (line 248 of the source): the new handle
shares the Control Block of `i` - it is the same block index, with the
strong count incremented - while its dereference targets a sub-object of
the value. -/
def aliasOf (h : Heap) (i : Nat) : Heap × Nat := (incStrong h i, i)

/-! The aliasing part of `advancedFeatures` (lines 247-249): a Widget(300)
owned by `widget`, an aliased handle `idPtr` to its `id` field, then - the
scenario of the spec - `widget` released first and `idPtr` last. -/

def afWidget : Heap × Nat := allocShared emptyHeap 300

def afAliased : Heap := (aliasOf afWidget.1 afWidget.2).1

def afOriginalReleased : Heap := release afAliased afWidget.2

def afAliasReleased : Heap :=
  release afOriginalReleased (aliasOf afWidget.1 afWidget.2).2

/-- The Component of the source (lines 219-226): a value that can hand out
a shared Strong Handle to itself through an internally stored weak
self-reference (enable_shared_from_this). Before any shared handle owns
the value the stored reference is empty. -/
structure Component where
  id : Nat
  weakSelf : Option Nat
deriving Repr, DecidableEq

/-- A Component that has been constructed but is not yet owned by any
shared Strong Handle: its weak self-reference is empty. -/
def mkComponent (id : Nat) : Component := ⟨id, none⟩

/-- Modelled from the spec: `create_shared` on a Component populates the
internal weak self-reference at the moment the first shared handle is
created (so the stored observer raises the weak count by one). -/
def makeSharedComponent (h : Heap) (id : Nat) : Heap × Nat × Component :=
  let hi := allocShared h id
  (incWeak hi.1 hi.2, hi.2, ⟨id, some hi.2⟩)

/-- Component::getPtr (`shared_from_this`): promote the stored weak
self-reference; `none` (the bad_weak_ptr precondition violation) when no
shared handle has ever owned the value. -/
def getPtr (h : Heap) (c : Component) : Option (Heap × Nat) :=
  match c.weakSelf with
  | none => none
  | some i => tryPromote h i

/-- The `advancedFeatures` use of Component (lines 242-244): Component 200
created through `make_shared`. -/
def compDemo (id : Nat) : Heap × Nat × Component := makeSharedComponent emptyHeap id

/-- ResourceCache (lines 263-279): a map from string keys to Weak Handles,
each entry naming the Control Block its weak handle observes. -/
structure Cache where
  entries : List (String × Nat)
deriving Repr, DecidableEq

def lookupKey (c : Cache) (k : String) : Option Nat :=
  (c.entries.find? fun e => e.1 == k).map Prod.snd

/-- The heap the miss path allocates on: when an (expired) entry for the
key existed, overwriting it first releases the previously stored weak
handle. -/
def cacheBase (h : Heap) (c : Cache) (key : String) : Heap :=
  match lookupKey c key with
  | some old => decWeak h old
  | none => h

/-- The miss path of ResourceCache::getOrCreate (lines 274-277): create a
fresh Widget through `create_shared`, store a Weak Handle to it against
the key (raising only the fresh block's weak count), and hand back the
strong handle. -/
def cacheMiss (h : Heap) (c : Cache) (key : String) (id : Nat) : Heap × Cache × Nat :=
  (incWeak (allocShared (cacheBase h c key) id).1 (allocShared (cacheBase h c key) id).2,
   ⟨(key, (allocShared (cacheBase h c key) id).2) ::
      c.entries.filter fun e => !(e.1 == key)⟩,
   (allocShared (cacheBase h c key) id).2)

/-- ResourceCache::getOrCreate (lines 266-278): when the key is cached and
its weak handle still promotes, return that strong handle; otherwise take
the miss path. -/
def getOrCreate (h : Heap) (c : Cache) (key : String) (id : Nat) : Heap × Cache × Nat :=
  match lookupKey c key with
  | some i =>
    match tryPromote h i with
    | some hj => (hj.1, c, hj.2)
    | none => cacheMiss h c key id
  | none => cacheMiss h c key id

/-! The `resourceCacheExample` trace (lines 281-293): res1 (miss), res2
(hit), both released at scope end, then res3 (miss again, because the
cache holds only a weak handle and did not keep the Widget alive). -/

def rc1 : Heap × Cache × Nat := getOrCreate emptyHeap ⟨[]⟩ "texture_1" 100

def rc2 : Heap × Cache × Nat := getOrCreate rc1.1 rc1.2.1 "texture_1" 100

def rcAfterScope : Heap := release (release rc2.1 rc2.2.2) rc1.2.2

def rc3 : Heap × Cache × Nat := getOrCreate rcAfterScope rc2.2.1 "texture_1" 100

end SmartPtr

namespace UniquePtr

/-- An exclusive Strong Handle (unique_ptr in the source): either empty or
holding a payload directly, with no Control Block. -/
structure UPtr where
  val : Option Nat
deriving Repr, DecidableEq

/-- make_unique. -/
def mk (v : Nat) : UPtr := ⟨some v⟩

/-- Modelled from the spec: `move_from` - the destination receives the
payload and the source becomes empty. Returns (destination, source after
the move). -/
def moveFrom (src : UPtr) : UPtr × UPtr := (⟨src.val⟩, ⟨none⟩)

/-- Dereference of an exclusive handle: `none` (a precondition violation)
when the handle is empty. -/
def deref (p : UPtr) : Option Nat := p.val

/-- Modelled from the spec: `move_from` on a shared Strong Handle (a
handle is an optional Control Block index): the destination takes over
the index, the source becomes empty, and no count in the heap changes.
Returns (heap, destination, source after the move). -/
def moveFromShared (h : SmartPtr.Heap) (src : Option Nat) :
    SmartPtr.Heap × Option Nat × Option Nat :=
  (h, src, none)

/-- Dereference through an optional handle: `none` (a precondition
violation) on the empty handle. -/
def derefOpt (h : SmartPtr.Heap) (p : Option Nat) : Option Nat :=
  match p with
  | none => none
  | some i => SmartPtr.deref h i

end UniquePtr

namespace Count

/-- One operation a client can perform on the handles of a single Control
Block: copy an existing shared Strong Handle, release one, or attempt a
promotion through a Weak Handle observing the block. -/
inductive Op
  | copy
  | release
  | promote
deriving Repr, DecidableEq

/-- Whether an operation needs a currently-live shared Strong Handle to be
performed (a copy copies an existing handle, a release destroys one; a
promotion only needs the weak observer). -/
def needsHandle : Op → Bool
  | .copy => true
  | .release => true
  | .promote => false

/-- The state of one Control Block together with the ghost number of
currently-live shared Strong Handles. `destroys` counts the firings of
the value's destroy-action. -/
structure St where
  handles : Nat
  strong : Nat
  destroys : Nat
deriving Repr, DecidableEq

/-- Modelled from the spec: the effect of one operation. A copy increments
the strong count, a release decrements it and fires the destroy-action on
the 1 to 0 transition, a promotion increments it only while it is
positive and otherwise does nothing. -/
def step : St → Op → St
  | s, .copy => { s with handles := s.handles + 1, strong := s.strong + 1 }
  | s, .release =>
    if s.strong = 1 then
      { handles := s.handles - 1, strong := 0, destroys := s.destroys + 1 }
    else
      { s with handles := s.handles - 1, strong := s.strong - 1 }
  | s, .promote =>
    if 0 < s.strong then
      { s with handles := s.handles + 1, strong := s.strong + 1 }
    else s

def run (s : St) (ops : List Op) : St := ops.foldl step s

/-- A sequence of operations is executable from `s` when every copy and
every release is performed through a currently-live handle. -/
def validB : St → List Op → Bool
  | _, [] => true
  | s, op :: ops => (!needsHandle op || decide (1 ≤ s.handles)) && validB (step s op) ops

/-- The state right after `create_shared`: one live handle, strong count
1, destroy-action not yet fired. -/
def init : St := ⟨1, 1, 0⟩

/-- The invariant of a single Control Block: the strong count equals the
number of live handles, and the destroy-action has fired exactly once if
the count has reached 0 and not at all otherwise. -/
def inv (s : St) : Prop :=
  s.strong = s.handles ∧ s.destroys = (if s.strong = 0 then 1 else 0)

/-- Whether the weak observer of the block reports the value gone. -/
def expiredSt (s : St) : Bool := decide (s.strong = 0)

end Count

namespace SmartPtr

theorem list_get?_set_self {α : Type} (l : List α) (i : Nat) (a : α)
    (h : i < l.length) : (l.set i a).get? i = some a := by
  induction l generalizing i with
  | nil => simp at h
  | cons x xs ih =>
    cases i with
    | zero => rfl
    | succ n => simpa using ih n (by simpa using h)

theorem getB_some_lt {h : Heap} {i : Nat} {b : Block} (hb : getB h i = some b) :
    i < h.blocks.length := by
  by_contra hlt
  simp only [getB] at hb
  rw [List.get?_eq_none.mpr (by omega)] at hb
  exact Option.noConfusion hb

theorem getB_modifyB_self {h : Heap} {i : Nat} {b : Block} (f : Block → Block)
    (hb : getB h i = some b) : getB (modifyB h i f) i = some (f b) := by
  have hlt := getB_some_lt hb
  unfold modifyB
  rw [hb]
  show (h.blocks.set i (f b)).get? i = some (f b)
  exact list_get?_set_self _ _ _ hlt

theorem length_modifyB (h : Heap) (i : Nat) (f : Block → Block) :
    (modifyB h i f).blocks.length = h.blocks.length := by
  unfold modifyB
  cases hg : getB h i with
  | none => rfl
  | some b => simp [setB]

theorem getB_allocShared (h : Heap) (v : Nat) :
    getB (allocShared h v).1 (allocShared h v).2 = some ⟨1, 0, true, v, [], []⟩ := by
  show (h.blocks ++ [(⟨1, 0, true, v, [], []⟩ : Block)]).get? h.blocks.length = _
  rw [List.get?_eq_getElem?]
  exact List.getElem?_concat_length _ _

/-- C4: `try_promote` on a Weak Handle observing a slot with positive
strong count returns a new shared Strong Handle to the same Control
Block, incrementing the strong count; dereferencing the promoted handle
yields the original value unchanged (the aliveness of a positively
counted slot is an invariant of reachable heaps - the destroy-action runs
only at the 1 to 0 transition - so it appears as a hypothesis of the
dereference conjuncts alone); on an expired slot (strong count 0) the
promotion returns `none`, never a dangling handle, with no condition on
the slot beyond its zero count. -/
theorem tryPromote_spec (h : Heap) (i : Nat) (b : Block)
    (hb : getB h i = some b) :
    (0 < b.strong →
      tryPromote h i = some (incStrong h i, i) ∧
      strongOf (incStrong h i) i = b.strong + 1) ∧
    (0 < b.strong → b.alive = true →
      deref (incStrong h i) i = some b.value ∧
      deref h i = some b.value) ∧
    (b.strong = 0 → tryPromote h i = none) := by
  have hset := getB_modifyB_self (fun b => { b with strong := b.strong + 1 }) hb
  refine ⟨?_, ?_, ?_⟩
  · intro hpos
    exact ⟨by simp [tryPromote, hb, hpos], by simp [incStrong, strongOf, hset]⟩
  · intro hpos halive
    exact ⟨by simp [incStrong, deref, hset, halive], by simp [deref, hb, halive]⟩
  · intro h0
    simp [tryPromote, hb, h0]

/-- Witness for C4 along the `weakPtrExample` trace: before `reset` the
Widget(50) block is live with strong count 1, so promotion succeeds and
dereferences to the original value; after `reset` the same slot is
expired (strong count 0, value destroyed) and promotion returns `none` -
both branches of the theorem exercised on real states of the example. -/
theorem tryPromote_spec_witness :
    (tryPromote wpeHeap 0 = some (incStrong wpeHeap 0, 0) ∧
     strongOf (incStrong wpeHeap 0) 0 = 1 + 1) ∧
    (deref (incStrong wpeHeap 0) 0 = some 50 ∧ deref wpeHeap 0 = some 50) ∧
    tryPromote wpeReset 0 = none :=
  ⟨(tryPromote_spec wpeHeap 0 ⟨1, 0, true, 50, [], []⟩ (by decide)).1 (by decide),
   (tryPromote_spec wpeHeap 0 ⟨1, 0, true, 50, [], []⟩ (by decide)).2.1
     (by decide) (by decide),
   (tryPromote_spec wpeReset 0 ⟨0, 1, false, 50, [], []⟩ (by decide)).2.2 (by decide)⟩

/-- C7: the aliased handle of `advancedFeatures` shares the Control Block
of the Widget(300) it was derived from (same block index, strong count
going from 1 to 2); after the original handle releases, the alias alone
keeps the value alive (count 1, destroy log still empty, slot alive); the
whole value's destroy-action fires exactly once, exactly when the alias
too is released, and no separate destruction of the sub-object ever
enters the log. -/
theorem alias_keeps_whole_value_alive :
    (aliasOf afWidget.1 afWidget.2).2 = afWidget.2 ∧
    strongOf afWidget.1 0 = 1 ∧
    strongOf afAliased 0 = 2 ∧
    strongOf afOriginalReleased 0 = 1 ∧
    afOriginalReleased.destroyed = [] ∧
    aliveOf afOriginalReleased 0 = true ∧
    afAliasReleased.destroyed = [0] ∧
    aliveOf afAliasReleased 0 = false := by
  decide

/-- C8: `shared_from_this` through the stored weak self-reference. Called
on a Component not yet owned by any shared Strong Handle, `getPtr` is a
precondition violation (`none`), whatever the heap; called on the
Component of `advancedFeatures`, owned by one shared handle since
`make_shared`, it returns a shared Strong Handle to the owner's own
Control Block with the strong count raised from 1 to 2. -/
theorem self_reference_requires_shared_owner :
    (∀ (h : Heap) (id : Nat), getPtr h (mkComponent id) = none) ∧
    (∀ id : Nat,
      getPtr (compDemo id).1 (compDemo id).2.2 =
        some (incStrong (compDemo id).1 (compDemo id).2.1, (compDemo id).2.1) ∧
      strongOf (compDemo id).1 (compDemo id).2.1 = 1 ∧
      strongOf (incStrong (compDemo id).1 (compDemo id).2.1) (compDemo id).2.1 = 2) := by
  constructor
  · intro h id
    rfl
  · intro id
    exact ⟨rfl, rfl, rfl⟩

/-- C1: in the strong-cycle demo (nodes A at block 0 holding value 10 and
B at block 1 holding value 20, linked A to B and B to A by shared Strong
Handles), after the two external stack handles are released no block on
the cycle ever reaches strong count 0: at every state of the trace both
counts stay positive, the destroy log stays empty, and the final state of
the program (which performs no further operation on these blocks) leaves
each node alive with strong count 1, held only by the other node's edge.
Hence neither destroy-action ever fires. -/
theorem cycle_of_strong_handles_never_destroys :
    cycleDemoShared.destroyed = [] ∧
    strongOf cdsLinked2 0 = 2 ∧ strongOf cdsLinked2 1 = 2 ∧
    strongOf cdsAfterBRelease 0 = 2 ∧ strongOf cdsAfterBRelease 1 = 1 ∧
    strongOf cycleDemoShared 0 = 1 ∧ strongOf cycleDemoShared 1 = 1 ∧
    aliveOf cycleDemoShared 0 = true ∧ aliveOf cycleDemoShared 1 = true := by
  decide

/-- C2: the same linkage with Weak Handles for the `next` edges (node A at
block 0 with value 30, node B at block 1 with value 40). Once the two
external handles are released, both destroy-actions fire, each exactly
once, and B - whose last strong reference dropped first, since the stack
unwinds in reverse declaration order - is destroyed first. -/
theorem weak_edge_breaks_cycle :
    cycleDemoWeak.destroyed = [1, 0] ∧
    cycleDemoWeak.destroyed.count 0 = 1 ∧
    cycleDemoWeak.destroyed.count 1 = 1 ∧
    aliveOf cycleDemoWeak 0 = false ∧ aliveOf cycleDemoWeak 1 = false ∧
    strongOf cycleDemoWeak 0 = 0 ∧ strongOf cycleDemoWeak 1 = 0 := by
  decide

/-- C10: ResourceCache::getOrCreate. When the cache holds an entry for the
key whose weak handle still promotes (the block's strong count is
positive), it returns a strong handle to that very block, incrementing
its count, allocating nothing, and leaving its value as-is. Otherwise -
no entry, or an expired one - it takes the miss path, which allocates a
fresh value whose block has strong count 1 (only the returned handle owns
it: the cache entry contributes to the weak count alone) and records the
key against the fresh block. The closing conjuncts run
`resourceCacheExample`: a hit on "texture_1" while it is alive, then
destruction as soon as the two scope handles release - although the cache
entry remains - and a fresh block on the next lookup: the cache itself
never keeps a value alive. -/
theorem getOrCreate_spec (h : Heap) (c : Cache) (key : String) (id : Nat) :
    (∀ i b, lookupKey c key = some i → getB h i = some b → 0 < b.strong →
      getOrCreate h c key id = (incStrong h i, c, i) ∧
      (incStrong h i).blocks.length = h.blocks.length ∧
      deref (incStrong h i) i = deref h i) ∧
    (lookupKey c key = none → getOrCreate h c key id = cacheMiss h c key id) ∧
    (∀ i b, lookupKey c key = some i → getB h i = some b → b.strong = 0 →
      getOrCreate h c key id = cacheMiss h c key id) ∧
    (getB (cacheMiss h c key id).1 (cacheMiss h c key id).2.2 =
      some ⟨1, 1, true, id, [], []⟩ ∧
     lookupKey (cacheMiss h c key id).2.1 key = some (cacheMiss h c key id).2.2) ∧
    (rc2 = (incStrong rc1.1 0, rc1.2.1, 0) ∧
     strongOf rc2.1 0 = 2 ∧
     rcAfterScope.destroyed = [0] ∧
     expired rcAfterScope 0 = true ∧
     rc3.2.2 = 1 ∧ strongOf rc3.1 1 = 1 ∧ weakOf rc3.1 1 = 1 ∧
     deref rc3.1 1 = some 100) := by
  refine ⟨?_, ?_, ?_, ⟨?_, ?_⟩, ?_⟩
  · intro i b hl hb hpos
    have hset := getB_modifyB_self (fun b => { b with strong := b.strong + 1 }) hb
    refine ⟨?_, length_modifyB h i _, ?_⟩
    · simp [getOrCreate, hl, tryPromote, hb, hpos]
    · simp [deref, incStrong, hset, hb]
  · intro hl
    simp [getOrCreate, hl]
  · intro i b hl hb h0
    simp [getOrCreate, hl, tryPromote, hb, h0]
  · exact getB_modifyB_self (fun b => { b with weak := b.weak + 1 })
      (getB_allocShared (cacheBase h c key) id)
  · simp [cacheMiss, lookupKey, List.find?]
  · decide

/-- Witness for C10 at the second `resourceCacheExample` lookup: the entry
for "texture_1" is present and alive (strong count 1), so the hit branch
returns the cached Widget's handle. -/
theorem getOrCreate_spec_witness :
    getOrCreate rc1.1 rc1.2.1 "texture_1" 100 = (incStrong rc1.1 0, rc1.2.1, 0) ∧
    (incStrong rc1.1 0).blocks.length = rc1.1.blocks.length ∧
    deref (incStrong rc1.1 0) 0 = deref rc1.1 0 :=
  (getOrCreate_spec rc1.1 rc1.2.1 "texture_1" 100).1 0 ⟨1, 1, true, 100, [], []⟩
    (by decide) (by decide) (by decide)

end SmartPtr

namespace UniquePtr

/-- C6: `move_from` leaves the source handle empty and dereferencing the
emptied source is a precondition violation (`none`), for the exclusive
discipline (the `uniquePtrExample` Widget(1) and `moveSemanticsExample`
Widget(700) traces) and for the shared discipline alike; the destination
receives the payload unchanged and, for shared handles, no reference
count in the heap moves. -/
theorem move_from_empties_source :
    (∀ p : UPtr,
      (moveFrom p).2.val = none ∧
      deref (moveFrom p).2 = none ∧
      (moveFrom p).1.val = p.val) ∧
    deref (moveFrom (mk 1)).1 = some 1 ∧
    deref (moveFrom (mk 700)).2 = none ∧
    (∀ (h : SmartPtr.Heap) (src : Option Nat),
      (moveFromShared h src).2.2 = none ∧
      derefOpt (moveFromShared h src).1 (moveFromShared h src).2.2 = none ∧
      (moveFromShared h src).1 = h ∧
      (moveFromShared h src).2.1 = src) := by
  refine ⟨fun p => ⟨rfl, rfl, rfl⟩, rfl, rfl, fun h src => ⟨rfl, rfl, rfl, rfl⟩⟩

end UniquePtr

namespace Count

theorem inv_step {s : St} {op : Op} (hs : inv s)
    (hok : needsHandle op = true → 1 ≤ s.handles) : inv (step s op) := by
  obtain ⟨h1, h2⟩ := hs
  cases op with
  | copy =>
    have hh : 1 ≤ s.handles := hok rfl
    refine ⟨by simp [step, h1], ?_⟩
    simp only [step]
    have : ¬ s.strong = 0 := by omega
    simp [this] at h2
    simp [h2]
  | release =>
    have hh : 1 ≤ s.handles := hok rfl
    by_cases h : s.strong = 1
    · refine ⟨by simp [step, h]; omega, ?_⟩
      simp [step, h] at h2 ⊢
      omega
    · have hpos : 2 ≤ s.strong := by omega
      refine ⟨by simp [step, h]; omega, ?_⟩
      simp only [step, if_neg h]
      have : ¬ s.strong = 0 := by omega
      have h2' : s.destroys = 0 := by simp [this] at h2; exact h2
      have : ¬ s.strong - 1 = 0 := by omega
      simp [this, h2']
  | promote =>
    by_cases h : 0 < s.strong
    · have hstep : step s Op.promote =
          { handles := s.handles + 1, strong := s.strong + 1, destroys := s.destroys } := by
        simp [step, h]
      have : ¬ s.strong = 0 := by omega
      simp [this] at h2
      rw [hstep]
      exact ⟨by simp [h1], by simp [h2]⟩
    · simpa [step, h] using ⟨h1, h2⟩

theorem inv_run {s : St} {ops : List Op} (hs : inv s)
    (hv : validB s ops = true) : inv (run s ops) := by
  induction ops generalizing s with
  | nil => simpa [run] using hs
  | cons op ops ih =>
    simp only [validB, Bool.and_eq_true, Bool.or_eq_true, Bool.not_eq_true',
      decide_eq_true_eq] at hv
    have hstep : inv (step s op) := by
      refine inv_step hs ?_
      intro hneed
      rcases hv.1 with h | h
      · simp [hneed] at h
      · exact h
    have : run (step s op) ops = run s (op :: ops) := by simp [run, List.foldl]
    rw [← this]
    exact ih hstep hv.2

theorem inv_init : inv init := by constructor <;> simp [init]

theorem run_append (s : St) (xs ys : List Op) :
    run s (xs ++ ys) = run (run s xs) ys := by
  simp [run, List.foldl_append]

theorem validB_append (s : St) (xs ys : List Op) :
    validB s (xs ++ ys) = (validB s xs && validB (run s xs) ys) := by
  induction xs generalizing s with
  | nil => simp [validB, run]
  | cons x xs ih =>
    simp only [List.cons_append, validB, List.append_eq]
    rw [ih (step s x)]
    simp [run, Bool.and_assoc]

/-- Once the strong count of a block whose state satisfies the invariant
has reached 0, no executable operation sequence can raise it again. -/
theorem strong_stays_zero {s : St} (hs : inv s) (h0 : s.strong = 0)
    {ops : List Op} (hv : validB s ops = true) : (run s ops).strong = 0 := by
  induction ops generalizing s with
  | nil => simpa [run] using h0
  | cons op ops ih =>
    simp only [validB, Bool.and_eq_true, Bool.or_eq_true, Bool.not_eq_true',
      decide_eq_true_eq] at hv
    have hh : s.handles = 0 := by
      have := hs.1
      omega
    have hop : needsHandle op = false := by
      rcases hv.1 with h | h
      · exact h
      · omega
    have hpromote : op = Op.promote := by
      cases op <;> simp [needsHandle] at hop ⊢
    subst hpromote
    have hfix : step s Op.promote = s := by
      simp [step, h0]
    have : run s (Op.promote :: ops) = run (step s Op.promote) ops := by
      simp [run, List.foldl_cons]
    rw [this, hfix]
    exact ih hs h0 (hfix ▸ hv.2)

/-- C3: for every executable sequence of copy, release and promote
operations on the handles of one Control Block, starting from
`create_shared`, the strong count always equals the number of
currently-live shared handles, and the destroy-action has fired exactly
once if and only if the count has reached 0 (the firing being built into
the 1 to 0 transition of `step`), and not at all otherwise. This is the
discipline `sharedPtrExample` prints: counts 1, 2, 1, then one
destruction at `reset`. -/
theorem strong_count_matches_live_handles (ops : List Op)
    (hv : validB init ops = true) :
    (run init ops).strong = (run init ops).handles ∧
    (run init ops).destroys = (if (run init ops).strong = 0 then 1 else 0) := by
  exact inv_run inv_init hv

/-- Witness for C3 at the `sharedPtrExample` trace: sp2 copied from sp1,
sp2 released at scope end, sp1 reset; the destroy-action fired once. -/
theorem strong_count_matches_live_handles_witness :
    validB init [Op.copy, Op.release, Op.release] = true ∧
    ((run init [Op.copy, Op.release, Op.release]).strong =
      (run init [Op.copy, Op.release, Op.release]).handles ∧
     (run init [Op.copy, Op.release, Op.release]).destroys =
      (if (run init [Op.copy, Op.release, Op.release]).strong = 0 then 1 else 0)) :=
  ⟨by decide, strong_count_matches_live_handles [Op.copy, Op.release, Op.release] (by decide)⟩

/-- C5: along every executable operation sequence from `create_shared`,
the weak observer's `is_expired` is true exactly when the strong count is
0 (so it reports not-expired while at least one strong handle is live),
and once it has returned true it never returns false again: every
executable continuation keeps the strong count at 0. -/
theorem expired_iff_strong_zero_and_permanent (ops more : List Op)
    (hv : validB init (ops ++ more) = true) :
    ((expiredSt (run init ops) = true) ↔ (run init ops).strong = 0) ∧
    (expiredSt (run init ops) = true →
      expiredSt (run init (ops ++ more)) = true) := by
  rw [validB_append, Bool.and_eq_true] at hv
  constructor
  · simp [expiredSt]
  · intro hexp
    have h0 : (run init ops).strong = 0 := by simpa [expiredSt] using hexp
    have hinv : inv (run init ops) := inv_run inv_init hv.1
    rw [run_append]
    simpa [expiredSt] using strong_stays_zero hinv h0 hv.2

/-- Witness for C5 at the `weakPtrExample` trace: `sp.reset()` drops the
last strong reference (expired becomes true), a later promotion attempt
fails and expiry stays true. -/
theorem expired_iff_strong_zero_and_permanent_witness :
    validB init ([Op.release] ++ [Op.promote]) = true ∧
    (((expiredSt (run init [Op.release]) = true) ↔ (run init [Op.release]).strong = 0) ∧
     (expiredSt (run init [Op.release]) = true →
       expiredSt (run init ([Op.release] ++ [Op.promote])) = true)) :=
  ⟨by decide, expired_iff_strong_zero_and_permanent [Op.release] [Op.promote] (by decide)⟩

end Count
